import Mathlib

/-!
Verification of the freight-market ETL pipeline (scrapers) against its
specification.  The Python sources under `src/scrapers` and `src/lib` are
shallowly embedded: strings are `List Char`, SQLAlchemy tables are lists of
structures, and each scraper's `store` pass is an explicit fold threading the
session state (committed rows updated in place, pending inserts kept apart
because the session is created with `autoflush=False`).
-/

/-- Strings of the embedded program are lists of characters, so that Python's
substring test (`in`) and `str.lower` can be reasoned about with list
lemmas. -/
abbrev Str := List Char

/-- Python `str.lower()` (character-wise lowercasing). -/
def lowerStr (s : Str) : Str := s.map Char.toLower

/-- Helper for Python's substring operator: does `needle` occur at the very
start of `hay`? -/
def startsSub : Str → Str → Bool
  | [], _ => true
  | _ :: _, [] => false
  | a :: as, b :: bs => (a == b) && startsSub as bs

/-- Python's substring operator `needle in hay` (contiguous substring). -/
def hasSub (needle : Str) : Str → Bool
  | [] => startsSub needle []
  | b :: bs => startsSub needle (b :: bs) || hasSub needle bs

/-- Truthiness of an optional string in Python (`None` and `''` are falsy). -/
def strTruthy : Option Str → Bool
  | none => false
  | some s => !s.isEmpty

/-- Truthiness of an optional float in Python (`None` and `0.0` are falsy). -/
def ratTruthy : Option Rat → Bool
  | none => false
  | some v => decide (v ≠ 0)

namespace News

/-- The keyword-to-tag table `NewsScraperConfig.TAG_KEYWORDS`
(`src/scrapers/news_scraper.py`), in source order. -/
def TAG_KEYWORDS : List (Str × List Str) :=
  [ ("capacity".toList,
      ["capacity".toList, "tight".toList, "shortage".toList,
       "availability".toList, "surplus".toList]),
    ("rates".toList,
      ["rate".toList, "pricing".toList, "cost".toList, "price".toList,
       "tariff".toList]),
    ("diesel".toList,
      ["diesel".toList, "fuel".toList, "energy".toList, "gas".toList]),
    ("ltl".toList,
      ["less-than-truckload".toList, "ltl".toList,
       "less than truckload".toList]),
    ("ftl".toList,
      ["full-truckload".toList, "ftl".toList, "full truckload".toList,
       "truckload".toList]),
    ("contracts".toList,
      ["contract".toList, "bid".toList, "rfp".toList, "agreement".toList]),
    ("economy".toList,
      ["economy".toList, "gdp".toList, "recession".toList, "demand".toList,
       "growth".toList]),
    ("regulation".toList,
      ["fmcsa".toList, "regulation".toList, "compliance".toList,
       "dot".toList, "law".toList]),
    ("technology".toList,
      ["technology".toList, "digital".toList, "automation".toList,
       "software".toList]),
    ("labor".toList,
      ["driver".toList, "labor".toList, "wage".toList, "employment".toList,
       "turnover".toList]),
    ("merger".toList,
      ["merger".toList, "acquisition".toList, "bought".toList,
       "consolidation".toList]),
    ("bankruptcy".toList,
      ["bankruptcy".toList, "closure".toList, "shutdown".toList,
       "failed".toList]) ]

/-- The urgency keyword list `NewsScraperConfig.IMPORTANT_KEYWORDS`. -/
def IMPORTANT_KEYWORDS : List Str :=
  ["breaking".toList, "major".toList, "crisis".toList, "shortage".toList,
   "spike".toList, "record".toList, "unprecedented".toList,
   "significant".toList, "urgent".toList]

/-- The high-priority tag list used inside `NewsScraper._auto_rate_importance`. -/
def priority_tags : List Str :=
  ["capacity".toList, "rates".toList, "bankruptcy".toList, "merger".toList]

/-- Embedding of `NewsScraper._auto_tag`: lowercases
`f"{title} {summary or ''} {full_content or ''}"` and activates every tag one
of whose keywords occurs in the text. -/
def auto_tag (title summary : Str) (full_content : Option Str) : List Str :=
  let text := lowerStr (title ++ [' '] ++ summary ++ [' '] ++ full_content.getD [])
  (TAG_KEYWORDS.filter (fun p => p.2.any (fun kw => hasSub kw text))).map (·.1)

/-- Embedding of `NewsScraper._auto_rate_importance`: score starts at 1, gains
one point for a high-priority tag, one for an urgent keyword in the title and
one for three or more tags, and is capped at 5. -/
def auto_rate_importance (title _summary : Str) (tags : List Str) : Nat :=
  let score := 1
  let score := if priority_tags.any (fun t => tags.contains t) then score + 1 else score
  let title_lower := lowerStr title
  let score := if IMPORTANT_KEYWORDS.any (fun kw => hasSub kw title_lower) then score + 1 else score
  let score := if 3 ≤ tags.length then score + 1 else score
  min score 5

/-- Closed form of the scorer as the spec states it, for comparison with the
imperative accumulation in `auto_rate_importance`. -/
def importance_spec (priorityHit urgentHit manyTags : Bool) : Nat :=
  min (1 + (if priorityHit then 1 else 0) + (if urgentHit then 1 else 0)
        + (if manyTags then 1 else 0)) 5

/-- A parsed article as produced by `NewsScraper.parse` (the dictionary handed
to `store`); `id` is whatever `_generate_id` computed for the entry. -/
structure Article where
  id : Str
  source : Str
  title : Str
  url : Str
  published_at : Int
  summary : Str
  full_content : Option Str
  tags : Str
  importance : Nat
  notes : Option Str
  read : Bool
deriving DecidableEq

/-- A row of the `news_articles` table (`lib/database.py`, class `NewsArticle`);
nullable columns are `Option`.  The `created_at`/`updated_at` bookkeeping
columns (wall-clock defaults) are outside the embedding. -/
structure NewsRow where
  id : Str
  source : Str
  title : Str
  url : Str
  published_at : Int
  summary : Str
  full_content : Option Str
  tags : Option Str
  importance : Nat
  notes : Option Str
  read : Bool
deriving DecidableEq

/-- Row built by `NewsArticle(**article_data)` in the insert branch of
`NewsScraper.store`. -/
def rowOfArticle (a : Article) : NewsRow :=
  { id := a.id, source := a.source, title := a.title, url := a.url,
    published_at := a.published_at, summary := a.summary,
    full_content := a.full_content, tags := some a.tags,
    importance := a.importance, notes := a.notes, read := a.read }

/-- The update branch of `NewsScraper.store`: always refresh `summary` and
`full_content`; auto-tag only while `tags` is still falsy; auto-rate only while
`importance == 1`; `notes`, `read` and the identity columns are untouched. -/
def updateRow (a : Article) (r : NewsRow) : NewsRow :=
  let r1 := { r with summary := a.summary, full_content := a.full_content }
  let r2 := if strTruthy r1.tags then r1 else { r1 with tags := some a.tags }
  if r2.importance = 1 then { r2 with importance := a.importance } else r2

end News

/-- Mutation of the first row matched by `db.query(...).filter_by(...).first()`:
only that row is changed, later rows are left alone. -/
def updFirst {α : Type} (p : α → Bool) (f : α → α) : List α → List α
  | [] => []
  | x :: xs => if p x then f x :: xs else x :: updFirst p f xs

namespace News

/-- Session-level loop of `NewsScraper.store`.  `rows` are the committed rows
(updated in place through the identity map), `added` are pending inserts; the
session has `autoflush=False` and `store` never flushes, so lookups see only
`rows`.  The final `commit` makes the state `rows ++ added`. -/
def storeAux : List Article → List NewsRow → List NewsRow → List NewsRow
  | [], rows, added => rows ++ added
  | a :: rest, rows, added =>
    match rows.find? (fun r => r.id == a.id) with
    | some _ => storeAux rest (updFirst (fun r => r.id == a.id) (updateRow a) rows) added
    | none => storeAux rest rows (added ++ [rowOfArticle a])

/-- Embedding of `NewsScraper.store`: state of the `news_articles` table after
the job's single commit. -/
def store (articles : List Article) (db : List NewsRow) : List NewsRow :=
  storeAux articles db []

/-- Variant of `NewsScraper.store` with a fault injected at the database layer:
records satisfying `bad` make the entity-level insert/update raise.  The
`except` branch calls `db.rollback()` (pending work is discarded, the committed
state is the input `db`) and re-raises; the error value carries the message. -/
def storeFaulty (bad : Article → Bool) :
    List Article → List NewsRow → List NewsRow → Except Str (List NewsRow)
  | [], rows, added => .ok (rows ++ added)
  | a :: rest, rows, added =>
    if bad a then .error ("Error storing articles".toList)
    else
      match rows.find? (fun r => r.id == a.id) with
      | some _ =>
          storeFaulty bad rest (updFirst (fun r => r.id == a.id) (updateRow a) rows) added
      | none => storeFaulty bad rest rows (added ++ [rowOfArticle a])

/-- Database state visible after `NewsScraper.store` returns or raises: on the
error path the rollback leaves the pre-store state. -/
def storeFaultyState (bad : Article → Bool) (articles : List Article)
    (db : List NewsRow) : List NewsRow :=
  match storeFaulty bad articles db [] with
  | .ok s => s
  | .error _ => db

end News

namespace Fred

/-- The two `table: daily` targets of `FREDScraper.SERIES`
(`GASREGW → gas_price`, `DCOILWTICO → oil_price`). -/
inductive DailyField
  | gas_price
  | oil_price
deriving DecidableEq

end Fred

/-- A row of the `daily_metrics` table (`lib/database.py`, class `DailyMetric`),
keyed by date; every metric column is nullable. -/
structure DailyMetric where
  date : Str
  van_spot_index : Option Rat
  reefer_spot_index : Option Rat
  flatbed_spot_index : Option Rat
  diesel_usd_per_gal : Option Rat
  gas_price : Option Rat
  oil_price : Option Rat
  source : Option Str
  confidence : Option Rat
deriving DecidableEq

/-- An empty `daily_metrics` row for a date (all metric columns NULL). -/
def DailyMetric.blank (d : Str) : DailyMetric :=
  { date := d, van_spot_index := none, reefer_spot_index := none,
    flatbed_spot_index := none, diesel_usd_per_gal := none, gas_price := none,
    oil_price := none, source := none, confidence := none }

namespace Fred

/-- Python `setattr(metric_row, field, value)` for the daily fields. -/
def setDailyField : DailyField → Rat → DailyMetric → DailyMetric
  | .gas_price, v, m => { m with gas_price := some v }
  | .oil_price, v, m => { m with oil_price := some v }

/-- One parsed daily observation handed to `FREDScraper.store`
(`{'date', 'field', 'value', 'source'}`). -/
structure DailyObs where
  date : Str
  field : DailyField
  value : Rat
  source : Str
deriving DecidableEq

/-- Source-column rule of `FREDScraper.store`:
`if not existing.source or 'FRED' not in existing.source: existing.source = new`. -/
def updSource (newSrc : Str) (cur : Option Str) : Option Str :=
  if !strTruthy cur then some newSrc
  else match cur with
    | none => some newSrc
    | some s => if hasSub ("FRED".toList) s then some s else some newSrc

/-- Update applied by `FREDScraper.store` to an existing `daily_metrics` row:
set only the observation's own field, then the source rule. -/
def updDaily (m : DailyObs) (r : DailyMetric) : DailyMetric :=
  let r1 := setDailyField m.field m.value r
  { r1 with source := updSource m.source r1.source }

/-- Row built in the insert branch of `FREDScraper.store`
(`DailyMetric(date=..., source=..., confidence=1.0)` then `setattr`). -/
def newDaily (m : DailyObs) : DailyMetric :=
  setDailyField m.field m.value
    { DailyMetric.blank m.date with source := some m.source, confidence := some 1 }

/-- One upsert step of the daily loop in `FREDScraper.store`.  This scraper
calls `db.flush()` after each insert, so pending rows are visible to later
lookups: a single row list suffices. -/
def dailyStep (rows : List DailyMetric) (m : DailyObs) : List DailyMetric :=
  match rows.find? (fun r => r.date == m.date) with
  | some _ => updFirst (fun r => r.date == m.date) (updDaily m) rows
  | none => rows ++ [newDaily m]

/-- Daily half of `FREDScraper.store` (the macro half follows the same pattern
on `macro_metrics` and is not needed by the claims). -/
def storeDaily (ms : List DailyObs) (db : List DailyMetric) : List DailyMetric :=
  ms.foldl dailyStep db

/-- Daily half of `FREDScraper.store` with an injected entity-level fault:
the `except` branch rolls the session back and re-raises. -/
def storeDailyFaulty (bad : DailyObs → Bool) :
    List DailyObs → List DailyMetric → Except Str (List DailyMetric)
  | [], rows => .ok rows
  | m :: rest, rows =>
    if bad m then .error ("Error storing FRED data".toList)
    else storeDailyFaulty bad rest (dailyStep rows m)

/-- Database state visible after the faulty `FREDScraper.store`: commits only
on success, the rollback otherwise leaves the pre-store state. -/
def storeDailyFaultyState (bad : DailyObs → Bool) (ms : List DailyObs)
    (db : List DailyMetric) : List DailyMetric :=
  match storeDailyFaulty bad ms db with
  | .ok s => s
  | .error _ => db

end Fred

/-- A row of the `diesel_prices` table (`lib/database.py`, class
`DieselPrice`); the autoincrement surrogate id is immaterial here. -/
structure DieselPriceRow where
  date : Str
  region_code : Str
  region_name : Str
  price : Rat
  series_description : Str
  source : Str
deriving DecidableEq

namespace EIA

/-- A parsed record handed to `EIADieselScraper.store`; region fields are
optional because the HTML fallback parser omits them (`dict.get` defaults
apply in `store`). -/
structure PriceRec where
  date : Str
  diesel_price : Rat
  region_code : Option Str
  region_name : Option Str
  series_description : Option Str
deriving DecidableEq

/-- Session state of `EIADieselScraper.store`: this scraper never flushes, so
pending inserts of both tables stay invisible to its own lookups. -/
structure Session where
  dieselRows : List DieselPriceRow
  dieselAdded : List DieselPriceRow
  dailyRows : List DailyMetric
  dailyAdded : List DailyMetric

/-- One loop iteration of `EIADieselScraper.store`: upsert the regional
`diesel_prices` row, and for the national region (`NUS`) also upsert
`daily_metrics.diesel_usd_per_gal`. -/
def eiaSourceUpd (cur : Option Str) : Option Str :=
  if !strTruthy cur then some ("EIA".toList)
  else match cur with
    | none => some ("EIA".toList)
    | some s => if hasSub ("EIA".toList) s then some s else some ("EIA".toList)

/-- Update applied by `EIADieselScraper.store` to an existing national
`daily_metrics` row: only `diesel_usd_per_gal` plus the source rule. -/
def updDailyDiesel (price : Rat) (r : DailyMetric) : DailyMetric :=
  let r1 := { r with diesel_usd_per_gal := some price }
  { r1 with source := eiaSourceUpd r1.source }

/-- National `daily_metrics` row built in the insert branch of
`EIADieselScraper.store`. -/
def newDailyDiesel (d : Str) (price : Rat) : DailyMetric :=
  let base := DailyMetric.blank d
  { base with
      diesel_usd_per_gal := some price
      source := some ("EIA".toList)
      confidence := some 1 }

/-- One loop iteration of `EIADieselScraper.store`: upsert the regional
`diesel_prices` row, and for the national region (`NUS`) also upsert
`daily_metrics.diesel_usd_per_gal`. -/
def step (st : Session) (p : PriceRec) : Session :=
  let region_code := p.region_code.getD ("UNKNOWN".toList)
  let region_name := p.region_name.getD ("Unknown".toList)
  let series_desc := p.series_description.getD []
  let regionalKey := fun (r : DieselPriceRow) => r.date == p.date && r.region_code == region_code
  let regionalUpd := fun (r : DieselPriceRow) =>
    { r with price := p.diesel_price, region_name := region_name,
             series_description := series_desc }
  let regionalNew : DieselPriceRow :=
    { date := p.date, region_code := region_code, region_name := region_name,
      price := p.diesel_price, series_description := series_desc,
      source := "EIA".toList }
  let st :=
    match st.dieselRows.find? regionalKey with
    | some _ => { st with dieselRows := updFirst regionalKey regionalUpd st.dieselRows }
    | none => { st with dieselAdded := st.dieselAdded ++ [regionalNew] }
  if region_code == "NUS".toList then
    let dailyKey := fun (r : DailyMetric) => r.date == p.date
    match st.dailyRows.find? dailyKey with
    | some _ =>
        { st with dailyRows := updFirst dailyKey (updDailyDiesel p.diesel_price) st.dailyRows }
    | none =>
        { st with dailyAdded := st.dailyAdded ++ [newDailyDiesel p.date p.diesel_price] }
  else st

/-- Embedding of `EIADieselScraper.store`: final `(diesel_prices,
daily_metrics)` state after the commit. -/
def store (ps : List PriceRec) (diesel : List DieselPriceRow)
    (daily : List DailyMetric) : List DieselPriceRow × List DailyMetric :=
  let st := ps.foldl step ⟨diesel, [], daily, []⟩
  (st.dieselRows ++ st.dieselAdded, st.dailyRows ++ st.dailyAdded)

end EIA

/-- A row of the `macro_metrics` table (`lib/database.py`, class
`MacroMetric`), keyed by month; every metric column is nullable. -/
structure MacroMetric where
  month : Str
  cass_shipments_index : Option Rat
  cass_expenditures_index : Option Rat
  ata_tonnage_index : Option Rat
  ftr_trucking_conditions_index : Option Rat
  industrial_production : Option Rat
  ism_pmi : Option Rat
  retail_sales : Option Rat
  consumer_sentiment : Option Rat
  truck_transport_index : Option Rat
  source : Option Str
  confidence : Option Rat
deriving DecidableEq

/-- An empty `macro_metrics` row for a month (all metric columns NULL). -/
def MacroMetric.blank (m : Str) : MacroMetric :=
  { month := m, cass_shipments_index := none, cass_expenditures_index := none,
    ata_tonnage_index := none, ftr_trucking_conditions_index := none,
    industrial_production := none, ism_pmi := none, retail_sales := none,
    consumer_sentiment := none, truck_transport_index := none,
    source := none, confidence := none }

namespace Cass

/-- A record produced by `CassScraper.parse`; `note` models the optional
`'_note'` key that marks the "manual review needed" sentinel. -/
structure Rec where
  month : Str
  cass_shipments_index : Option Rat
  cass_expenditures_index : Option Rat
  note : Option Str
deriving DecidableEq

/-- Update applied by `CassScraper.store` to an existing `macro_metrics` row
(truthy values only), then `source`/`confidence` stamped. -/
def updRow (m : Rec) (r : MacroMetric) : MacroMetric :=
  let r1 := if ratTruthy m.cass_shipments_index
            then { r with cass_shipments_index := m.cass_shipments_index } else r
  let r2 := if ratTruthy m.cass_expenditures_index
            then { r1 with cass_expenditures_index := m.cass_expenditures_index } else r1
  { r2 with source := some ("Cass".toList), confidence := some 1 }

/-- Row built in the insert branch of `CassScraper.store`. -/
def newRow (m : Rec) : MacroMetric :=
  let base := MacroMetric.blank m.month
  { base with
      cass_shipments_index := m.cass_shipments_index
      cass_expenditures_index := m.cass_expenditures_index
      source := some ("Cass".toList)
      confidence := some 1 }

/-- Session-level loop of `CassScraper.store` (no flush: pending inserts stay
invisible to the loop's own lookups).  Records whose `_note` is truthy are
skipped before touching the table. -/
def storeAux : List Rec → List MacroMetric → List MacroMetric → List MacroMetric
  | [], rows, added => rows ++ added
  | m :: rest, rows, added =>
    if strTruthy m.note then storeAux rest rows added
    else
      match rows.find? (fun r => r.month == m.month) with
      | some _ => storeAux rest (updFirst (fun r => r.month == m.month) (updRow m) rows) added
      | none => storeAux rest rows (added ++ [newRow m])

/-- Embedding of `CassScraper.store`. -/
def store (ms : List Rec) (db : List MacroMetric) : List MacroMetric :=
  storeAux ms db []

end Cass

namespace ATA

/-- A record produced by `ATAScraper.parse`; `note` models the optional
`'_note'` sentinel key. -/
structure Rec where
  month : Str
  ata_tonnage_index : Option Rat
  note : Option Str
deriving DecidableEq

/-- Update applied by `ATAScraper.store` to an existing `macro_metrics` row. -/
def updRow (m : Rec) (r : MacroMetric) : MacroMetric :=
  let r1 := if ratTruthy m.ata_tonnage_index
            then { r with ata_tonnage_index := m.ata_tonnage_index } else r
  { r1 with source := some ("ATA".toList), confidence := some 1 }

/-- Row built in the insert branch of `ATAScraper.store`. -/
def newRow (m : Rec) : MacroMetric :=
  let base := MacroMetric.blank m.month
  { base with
      ata_tonnage_index := m.ata_tonnage_index
      source := some ("ATA".toList)
      confidence := some 1 }

/-- Session-level loop of `ATAScraper.store`; sentinel records are skipped. -/
def storeAux : List Rec → List MacroMetric → List MacroMetric → List MacroMetric
  | [], rows, added => rows ++ added
  | m :: rest, rows, added =>
    if strTruthy m.note then storeAux rest rows added
    else
      match rows.find? (fun r => r.month == m.month) with
      | some _ => storeAux rest (updFirst (fun r => r.month == m.month) (updRow m) rows) added
      | none => storeAux rest rows (added ++ [newRow m])

/-- Embedding of `ATAScraper.store`. -/
def store (ms : List Rec) (db : List MacroMetric) : List MacroMetric :=
  storeAux ms db []

end ATA

namespace Base

/-- Status column of a `scraper_runs` row. -/
inductive RunStatus
  | running
  | success
  | failed
deriving DecidableEq

/-- A row of the `scraper_runs` table, as written by `BaseScraper.run`
(wall-clock timestamp columns are outside the embedding). -/
structure ScraperRunRow where
  scraper_name : Str
  status : RunStatus
  error_message : Option Str
  records_scraped : Option Nat
deriving DecidableEq

/-- Loop of `BaseScraper.run` over `range(max_retries)`.  `outcomes i` is the
result of the fetch→parse→store pipeline on attempt `i` (`ok` carries
`len(parsed_data)`, `error` the exception message).  Returns the Python return
value (`none` models falling off the loop, which returns `None`), the final
`scraper_runs` row, and the number of attempts performed. -/
def runGo (outcomes : Nat → Except Str Nat) (maxRetries : Nat) (attempt : Nat)
    (row : ScraperRunRow) (done : Nat) : Option Bool × ScraperRunRow × Nat :=
  if h : attempt < maxRetries then
    match outcomes attempt with
    | .ok n => (some true, { row with status := .success, records_scraped := some n }, done + 1)
    | .error e =>
      if attempt < maxRetries - 1 then
        runGo outcomes maxRetries (attempt + 1) row (done + 1)
      else
        (some false, { row with status := .failed, error_message := some e }, done + 1)
  else (none, row, done)
termination_by maxRetries - attempt

/-- Embedding of `BaseScraper.run`: inserts the `running` row, then retries the
pipeline up to `maxRetries` times. -/
def run (outcomes : Nat → Except Str Nat) (maxRetries : Nat) (name : Str) :
    Option Bool × ScraperRunRow × Nat :=
  runGo outcomes maxRetries 0
    { scraper_name := name, status := .running, error_message := none,
      records_scraped := none } 0

end Base

namespace Orchestrator

/-- Outcome of one line of the `run_all_scrapers.main` summary table. -/
inductive JobResult
  | success
  | failed
  | fatal (msg : Str)
deriving DecidableEq

/-- Outcome classification of one orchestrated job: `scraper.run()` either
returns (`ok`, with Python's `True`/`False`/`None`) or raises (`error`). -/
def classify : Except Str (Option Bool) → JobResult
  | .ok (some true) => .success
  | .ok (some false) => .failed
  | .ok none => .failed
  | .error e => .fatal e

/-- Embedding of the job loop of `run_all_scrapers.main`: every job in the
fixed ordered list is run inside its own `try`/`except`, so each contributes
exactly one summary line regardless of earlier failures. -/
def mainResults (jobs : List (Str × Except Str (Option Bool))) : List (Str × JobResult) :=
  jobs.map (fun j => (j.1, classify j.2))

/-- Exit-code rule of `run_all_scrapers.main`: non-zero iff any job failed. -/
def failedCount (results : List (Str × JobResult)) : Nat :=
  (results.filter (fun r => !(r.2 == JobResult.success))).length

end Orchestrator

namespace Http

/-- One network-level possibility for a single HTTP request. -/
inductive NetEvent
  | respond (status : Nat)
  | connFail
  | timedOut
deriving DecidableEq

/-- The transport-failure taxonomy of the `requests` library
(`requests.exceptions.RequestException` subclasses relevant here). -/
inductive TransportErr
  | connectionError
  | timeoutError
  | httpStatusError (status : Nat)
deriving DecidableEq

/-- An HTTP response as the wrapper returns it. -/
structure HttpResponse where
  status : Nat
deriving DecidableEq

/-- Modelled third-party behaviour, from the `requests` library contract (the
library is not part of this repository): `Session.get`/`Session.post` return
the response object whatever its HTTP status and raise only on transport
problems (connection failure, timeout); one call consumes exactly one network
event.  Consistent with the repository's callers, which invoke
`response.raise_for_status()` themselves after calling the wrapper. -/
def sessionRequest (_timeoutSeconds : Nat) (net : List NetEvent) :
    Except TransportErr HttpResponse × List NetEvent :=
  match net with
  | [] => (.error .connectionError, [])
  | e :: rest =>
    match e with
    | .respond s => (.ok ⟨s⟩, rest)
    | .connFail => (.error .connectionError, rest)
    | .timedOut => (.error .timeoutError, rest)

/-- The timeout `BaseScraper.get`/`BaseScraper.post` pass on every request. -/
def scraperTimeout : Nat := 30

/-- Embedding of `BaseScraper.get` (`self.session.get(url, timeout=30)`). -/
def scraperGet (net : List NetEvent) : Except TransportErr HttpResponse × List NetEvent :=
  sessionRequest scraperTimeout net

/-- Embedding of `BaseScraper.post` (`self.session.post(url, timeout=30)`). -/
def scraperPost (net : List NetEvent) : Except TransportErr HttpResponse × List NetEvent :=
  sessionRequest scraperTimeout net

/-- Modelled third-party behaviour, from the `requests` library contract:
`Response.raise_for_status()` raises `HTTPError` exactly for status codes 400
and above. -/
def raiseForStatus (r : HttpResponse) : Except TransportErr HttpResponse :=
  if 400 ≤ r.status then .error (.httpStatusError r.status) else .ok r

end Http

namespace Pagination

/-- The per-request page size of `EIADieselScraper._fetch_via_api`
(`length = 5000`). -/
def eiaPageLen : Nat := 5000

/-- The accumulated-record safety cap of `EIADieselScraper._fetch_via_api`. -/
def eiaCap : Nat := 100000

/-- Pagination loop of `EIADieselScraper._fetch_via_api`: `server offset` is
the batch the API returns for that offset.  Stops on an empty batch, on a
batch shorter than the page size, or once the accumulated records reach the
safety cap. -/
def eiaFetchLoop {α : Type} (server : Nat → List α) (offset : Nat) (acc : List α) :
    List α :=
  let batch := server offset
  if hb : batch.isEmpty then acc
  else
    let acc2 := acc ++ batch
    if batch.length < eiaPageLen then acc2
    else if hc : eiaCap ≤ acc2.length then acc2
    else eiaFetchLoop server (offset + eiaPageLen) acc2
termination_by eiaCap - acc.length
decreasing_by
  simp only [List.isEmpty_iff] at hb
  have hbl : 0 < (server offset).length := List.length_pos.mpr hb
  simp only [acc2, batch, List.length_append] at hc ⊢
  omega

/-- Embedding of the batch loop in `EIADieselScraper._fetch_via_api`
(starting at offset 0 with an empty accumulator). -/
def eiaFetch {α : Type} (server : Nat → List α) : List α :=
  eiaFetchLoop server 0 []

/-- The per-request page size of `USASpendingScraper.fetch` (`limit_per_page`). -/
def usasPageLen : Nat := 100

/-- The per-PSC-code cap of `USASpendingScraper.fetch`
(`max_contracts_per_psc`). -/
def usasCap : Nat := 2000

/-- Pagination loop of `USASpendingScraper.fetch` for one PSC code:
`while psc_total < max_contracts_per_psc` posts page `page`; an empty result
breaks, a short page breaks after accumulating. -/
def usasFetchLoop {α : Type} (server : Nat → List α) (page : Nat) (total : Nat)
    (acc : List α) : List α :=
  if ht : usasCap ≤ total then acc
  else
    let results := server page
    if results.isEmpty then acc
    else
      let acc2 := acc ++ results
      let total2 := total + results.length
      if results.length < usasPageLen then acc2
      else usasFetchLoop server (page + 1) total2 acc2
termination_by usasCap - total
decreasing_by
  rename_i hshort
  have hres : usasPageLen ≤ (server page).length := Nat.le_of_not_lt hshort
  simp only [usasPageLen] at hres
  simp only [total2, results] at *
  omega

/-- Embedding of the per-PSC pagination in `USASpendingScraper.fetch`
(page numbering starts at 1, empty accumulator, zero total). -/
def usasFetchPSC {α : Type} (server : Nat → List α) : List α :=
  usasFetchLoop server 1 0 []

end Pagination

/-- A national (`NUS`) diesel record as `EIADieselScraper._parse_api_data`
emits it for a week. -/
def EIA.nusRec (d : Str) (pr : Rat) (rn sd : Str) : EIA.PriceRec :=
  { date := d, diesel_price := pr, region_code := some ("NUS".toList),
    region_name := some rn, series_description := some sd }

/-- A crude-oil (`DCOILWTICO → oil_price`) observation as `FREDScraper.parse`
emits it for a day. -/
def Fred.oilObs (d : Str) (v : Rat) (src : Str) : Fred.DailyObs :=
  { date := d, field := .oil_price, value := v, source := src }

/-- The common upsert shape both jobs apply to `daily_metrics` for one date:
update the first row found for the date, or insert the job's fresh row. -/
def upsertByDate (d : Str) (g : DailyMetric → DailyMetric) (nr : DailyMetric)
    (l : List DailyMetric) : List DailyMetric :=
  match l.find? (fun r => r.date == d) with
  | some _ => updFirst (fun r => r.date == d) g l
  | none => l ++ [nr]

/-- A minimal parsed article, used to exercise the store functions on concrete
input. -/
def News.sampleArticle : News.Article :=
  { id := "k".toList
    source := "FreightWaves".toList
    title := "t".toList
    url := "u".toList
    published_at := 0
    summary := "s".toList
    full_content := none
    tags := []
    importance := 1
    notes := none
    read := false }

/-! ## Helper lemmas -/

theorem startsSub_iff : ∀ (n h : Str), startsSub n h = true ↔ ∃ t, h = n ++ t
  | [], h => by simp [startsSub]
  | _ :: _, [] => by simp [startsSub]
  | a :: as, b :: bs => by
    simp only [startsSub, Bool.and_eq_true, beq_iff_eq, List.cons_append,
      List.cons.injEq]
    rw [startsSub_iff as bs]
    constructor
    · rintro ⟨rfl, t, rfl⟩
      exact ⟨t, rfl, rfl⟩
    · rintro ⟨t, rfl, rfl⟩
      exact ⟨rfl, t, rfl⟩

theorem hasSub_iff : ∀ (n h : Str), hasSub n h = true ↔ ∃ p t, h = p ++ (n ++ t)
  | n, [] => by
    simp only [hasSub, startsSub_iff]
    constructor
    · rintro ⟨t, ht⟩
      exact ⟨[], t, ht⟩
    · rintro ⟨p, t, ht⟩
      rcases p with _ | ⟨c, cs⟩
      · exact ⟨t, ht⟩
      · simp at ht
  | n, b :: bs => by
    simp only [hasSub, Bool.or_eq_true, startsSub_iff]
    rw [hasSub_iff n bs]
    constructor
    · rintro (⟨t, ht⟩ | ⟨p, t, ht⟩)
      · exact ⟨[], t, by simpa using ht⟩
      · exact ⟨b :: p, t, by simp [ht]⟩
    · rintro ⟨p, t, ht⟩
      rcases p with _ | ⟨c, cs⟩
      · exact .inl ⟨t, by simpa using ht⟩
      · simp only [List.cons_append, List.cons.injEq] at ht
        exact .inr ⟨cs, t, ht.2⟩

theorem hasSub_of_decomp {n h : Str} (p t : Str) (hd : h = p ++ (n ++ t)) :
    hasSub n h = true :=
  (hasSub_iff n h).mpr ⟨p, t, hd⟩

theorem hasSub_append_left {n L : Str} (R : Str) (h : hasSub n L = true) :
    hasSub n (L ++ R) = true := by
  obtain ⟨p, t, rfl⟩ := (hasSub_iff n L).mp h
  exact hasSub_of_decomp p (t ++ R) (by simp)

theorem hasSub_mono_super {n m L : Str} (u v : Str) (hm : m = u ++ (n ++ v))
    (h₁ : hasSub m L = true) : hasSub n L = true := by
  obtain ⟨p, t, rfl⟩ := (hasSub_iff m L).mp h₁
  subst hm
  exact hasSub_of_decomp (p ++ u) (v ++ t) (by simp)

theorem lowerStr_append (a b : Str) : lowerStr (a ++ b) = lowerStr a ++ lowerStr b := by
  simp [lowerStr]

/-- Shared closed form of `NewsScraper._auto_rate_importance`: the imperative
accumulation equals the spec's formula. -/
theorem rate_closed_form (title summary : Str) (tags : List Str) :
    News.auto_rate_importance title summary tags =
      News.importance_spec (News.priority_tags.any (fun t => tags.contains t))
        (News.IMPORTANT_KEYWORDS.any (fun kw => hasSub kw (lowerStr title)))
        (decide (3 ≤ tags.length)) := by
  unfold News.auto_rate_importance News.importance_spec
  cases hp : News.priority_tags.any (fun t => tags.contains t) <;>
    cases hu : News.IMPORTANT_KEYWORDS.any (fun kw => hasSub kw (lowerStr title)) <;>
      by_cases hm : 3 ≤ tags.length <;>
        simp [hp, hu, hm]

/-- Membership of the capacity tag in the output of the tagger, given a
substring occurrence of one of its keywords in the assembled text. -/
theorem capacity_tag_of_hasSub {title summary : Str} {full : Option Str}
    (h : hasSub ("capacity".toList)
      (lowerStr (title ++ [' '] ++ summary ++ [' '] ++ full.getD [])) = true) :
    ("capacity".toList) ∈ News.auto_tag title summary full := by
  unfold News.auto_tag
  refine List.mem_map.mpr ?_
  refine ⟨(("capacity".toList,
      ["capacity".toList, "tight".toList, "shortage".toList,
       "availability".toList, "surplus".toList])), ?_, rfl⟩
  refine List.mem_filter.mpr ⟨?_, ?_⟩
  · simp [News.TAG_KEYWORDS]
  · simp only [List.any_cons, Bool.or_eq_true]
    exact .inl h

/-- Claim C9: the importance scorer follows the documented formula (start at 1,
+1 for a high-priority tag, +1 for an urgent keyword in the title, +1 for three
or more tags, capped at 5), and for any entry whose lowercased title contains
"capacity shortage" the keyword tagger assigns the tag `capacity` and the
importance score exceeds the neutral baseline entry's score by at least 1. -/
theorem claim_C9 (title summary : Str)
    (h : hasSub ("capacity shortage".toList) (lowerStr title) = true) :
    ("capacity".toList) ∈ News.auto_tag title summary none
    ∧ News.auto_rate_importance [] [] [] + 1 ≤
        News.auto_rate_importance title summary (News.auto_tag title summary none)
    ∧ (∀ t s tg, News.auto_rate_importance t s tg =
        News.importance_spec (News.priority_tags.any (fun x => tg.contains x))
          (News.IMPORTANT_KEYWORDS.any (fun kw => hasSub kw (lowerStr t)))
          (decide (3 ≤ tg.length))) := by
  have hcap : hasSub ("capacity".toList) (lowerStr title) = true :=
    hasSub_mono_super [] (" shortage".toList) (by rfl) h
  have hmem : ("capacity".toList) ∈ News.auto_tag title summary none := by
    apply capacity_tag_of_hasSub
    simp only [Option.getD_none, List.append_nil, List.append_assoc]
    rw [lowerStr_append]
    exact hasSub_append_left _ hcap
  refine ⟨hmem, ?_, fun t s tg => rate_closed_form t s tg⟩
  have hbase : News.auto_rate_importance [] [] [] = 1 := by decide
  have hpri : News.priority_tags.any
      (fun x => (News.auto_tag title summary none).contains x) = true := by
    refine List.any_eq_true.mpr ⟨"capacity".toList, ?_, List.elem_iff.mpr hmem⟩
    simp [News.priority_tags]
  have hall : ∀ u m : Bool, 2 ≤ News.importance_spec true u m := by decide
  rw [hbase, rate_closed_form title summary (News.auto_tag title summary none), hpri]
  exact hall _ _

/-- Witness for C9 at a concrete title containing "capacity shortage". -/
theorem claim_C9_witness :
    (hasSub ("capacity shortage".toList)
        (lowerStr ("Capacity shortage hits trucking".toList)) = true)
    ∧ (("capacity".toList) ∈
        News.auto_tag ("Capacity shortage hits trucking".toList) ("A summary".toList) none
      ∧ News.auto_rate_importance [] [] [] + 1 ≤
          News.auto_rate_importance ("Capacity shortage hits trucking".toList)
            ("A summary".toList)
            (News.auto_tag ("Capacity shortage hits trucking".toList) ("A summary".toList) none)
      ∧ (∀ t s tg, News.auto_rate_importance t s tg =
          News.importance_spec (News.priority_tags.any (fun x => tg.contains x))
            (News.IMPORTANT_KEYWORDS.any (fun kw => hasSub kw (lowerStr t)))
            (decide (3 ≤ tg.length)))) :=
  ⟨by decide, claim_C9 ("Capacity shortage hits trucking".toList) ("A summary".toList) (by decide)⟩

/-- Claim C10: the auto importance scorer always returns a value between 1 and
4 inclusive — the documented cap of 5 is never binding, so no automatically
scored article receives importance 5. -/
theorem claim_C10 (title summary : Str) (tags : List Str) :
    1 ≤ News.auto_rate_importance title summary tags
    ∧ News.auto_rate_importance title summary tags ≤ 4 := by
  have h : ∀ a b c : Bool,
      1 ≤ News.importance_spec a b c ∧ News.importance_spec a b c ≤ 4 := by decide
  rw [rate_closed_form]
  exact h _ _ _

theorem cass_storeAux_filter (recs : List Cass.Rec) :
    ∀ (rows added : List MacroMetric),
      Cass.storeAux recs rows added =
        Cass.storeAux (recs.filter (fun m => !strTruthy m.note)) rows added := by
  induction recs with
  | nil => intro rows added; rfl
  | cons m rest ih =>
    intro rows added
    by_cases hm : strTruthy m.note = true
    · simp [Cass.storeAux, hm, List.filter_cons, ih]
    · simp only [Bool.not_eq_true] at hm
      simp only [Cass.storeAux, hm, List.filter_cons, Bool.not_false, if_pos]
      cases hfind : rows.find? (fun r => r.month == m.month) <;>
        simp [Cass.storeAux, hm, hfind, ih]

theorem cass_storeAux_all_sentinel (recs : List Cass.Rec) :
    ∀ (rows added : List MacroMetric), (∀ m ∈ recs, strTruthy m.note = true) →
      Cass.storeAux recs rows added = rows ++ added := by
  induction recs with
  | nil => intro rows added _; rfl
  | cons m rest ih =>
    intro rows added hall
    have hm : strTruthy m.note = true := hall m (List.mem_cons_self ..)
    simp only [Cass.storeAux, hm, if_pos]
    exact ih rows added (fun x hx => hall x (List.mem_cons_of_mem _ hx))

theorem ata_storeAux_filter (recs : List ATA.Rec) :
    ∀ (rows added : List MacroMetric),
      ATA.storeAux recs rows added =
        ATA.storeAux (recs.filter (fun m => !strTruthy m.note)) rows added := by
  induction recs with
  | nil => intro rows added; rfl
  | cons m rest ih =>
    intro rows added
    by_cases hm : strTruthy m.note = true
    · simp [ATA.storeAux, hm, List.filter_cons, ih]
    · simp only [Bool.not_eq_true] at hm
      simp only [ATA.storeAux, hm, List.filter_cons, Bool.not_false, if_pos]
      cases hfind : rows.find? (fun r => r.month == m.month) <;>
        simp [ATA.storeAux, hm, hfind, ih]

theorem ata_storeAux_all_sentinel (recs : List ATA.Rec) :
    ∀ (rows added : List MacroMetric), (∀ m ∈ recs, strTruthy m.note = true) →
      ATA.storeAux recs rows added = rows ++ added := by
  induction recs with
  | nil => intro rows added _; rfl
  | cons m rest ih =>
    intro rows added hall
    have hm : strTruthy m.note = true := hall m (List.mem_cons_self ..)
    simp only [ATA.storeAux, hm, if_pos]
    exact ih rows added (fun x hx => hall x (List.mem_cons_of_mem _ hx))

/-- Claim C6: parse results carrying a truthy `_note` sentinel are filtered out
by the store step before persistence — storing any record list equals storing
its non-sentinel records only, and storing a list of sentinel records alone
leaves the `macro_metrics` table unchanged (and raises nothing); this holds for
both `CassScraper.store` and `ATAScraper.store`. -/
theorem claim_C6 :
    (∀ (recs : List Cass.Rec) (db : List MacroMetric),
        Cass.store recs db = Cass.store (recs.filter (fun m => !strTruthy m.note)) db)
    ∧ (∀ (recs : List Cass.Rec) (db : List MacroMetric),
        Cass.store (recs.filter (fun m => strTruthy m.note)) db = db)
    ∧ (∀ (recs : List ATA.Rec) (db : List MacroMetric),
        ATA.store recs db = ATA.store (recs.filter (fun m => !strTruthy m.note)) db)
    ∧ (∀ (recs : List ATA.Rec) (db : List MacroMetric),
        ATA.store (recs.filter (fun m => strTruthy m.note)) db = db) := by
  refine ⟨fun recs db => cass_storeAux_filter recs db [], fun recs db => ?_,
    fun recs db => ata_storeAux_filter recs db [], fun recs db => ?_⟩
  · rw [Cass.store, cass_storeAux_all_sentinel _ _ _
      (fun m hm => (List.mem_filter.mp hm).2), List.append_nil]
  · rw [ATA.store, ata_storeAux_all_sentinel _ _ _
      (fun m hm => (List.mem_filter.mp hm).2), List.append_nil]

theorem eia_server_ne_empty {α : Type} (server : Nat → List α)
    (hfull : ∀ o, (server o).length = Pagination.eiaPageLen) (o : Nat) :
    (server o).isEmpty = false := by
  cases hemp : (server o).isEmpty
  · rfl
  · exfalso
    have hlen := hfull o
    rw [List.isEmpty_iff.mp hemp] at hlen
    simp [Pagination.eiaPageLen] at hlen

theorem eia_loop_full {α : Type} (server : Nat → List α)
    (hfull : ∀ o, (server o).length = Pagination.eiaPageLen) :
    ∀ (n offset : Nat) (acc : List α),
      acc.length + Pagination.eiaPageLen * (n + 1) = Pagination.eiaCap →
      (Pagination.eiaFetchLoop server offset acc).length = Pagination.eiaCap := by
  intro n
  induction n with
  | zero =>
    intro offset acc hlen
    simp only [Pagination.eiaPageLen, Pagination.eiaCap] at hlen
    have hacc : acc.length = 95000 := by omega
    rw [Pagination.eiaFetchLoop]
    simp [eia_server_ne_empty server hfull offset, hfull offset,
      Pagination.eiaPageLen, Pagination.eiaCap, List.length_append, hacc]
  | succ n ih =>
    intro offset acc hlen
    simp only [Pagination.eiaPageLen, Pagination.eiaCap] at hlen
    have hlt : ¬ (100000 ≤ acc.length + 5000) := by omega
    rw [Pagination.eiaFetchLoop]
    simp only [eia_server_ne_empty server hfull offset, hfull offset,
      Pagination.eiaPageLen, Pagination.eiaCap, List.length_append,
      Bool.false_eq_true, dite_false, Nat.lt_irrefl, if_false, hlt]
    exact ih (offset + 5000) (acc ++ server offset)
      (by simp [List.length_append, hfull offset, Pagination.eiaPageLen,
        Pagination.eiaCap]; omega)

theorem eia_first_short {α : Type} (server : Nat → List α)
    (hshort : (server 0).length < Pagination.eiaPageLen) :
    Pagination.eiaFetch server = server 0 := by
  rw [Pagination.eiaFetch, Pagination.eiaFetchLoop]
  cases hemp : (server 0).isEmpty
  · simp [hemp, hshort]
  · simp [hemp, List.isEmpty_iff.mp hemp]

theorem usas_loop_full {α : Type} (server : Nat → List α)
    (hfull : ∀ p, (server p).length = Pagination.usasPageLen) :
    ∀ (n page total : Nat) (acc : List α),
      total + Pagination.usasPageLen * n = Pagination.usasCap →
      (Pagination.usasFetchLoop server page total acc).length =
        acc.length + (Pagination.usasCap - total) := by
  intro n
  induction n with
  | zero =>
    intro page total acc hlen
    simp only [Pagination.usasPageLen, Pagination.usasCap] at hlen
    have htot : total = 2000 := by omega
    rw [Pagination.usasFetchLoop]
    simp [htot, Pagination.usasCap]
  | succ n ih =>
    intro page total acc hlen
    simp only [Pagination.usasPageLen, Pagination.usasCap] at hlen
    have hne : (server page).isEmpty = false := by
      cases hemp : (server page).isEmpty
      · rfl
      · exfalso
        have := hfull page
        rw [List.isEmpty_iff.mp hemp] at this
        simp [Pagination.usasPageLen] at this
    have hnc : ¬ (Pagination.usasCap ≤ total) := by
      simp only [Pagination.usasCap]; omega
    rw [Pagination.usasFetchLoop]
    simp only [hnc, dite_false, hne, Bool.false_eq_true, if_false,
      hfull page, Pagination.usasPageLen, Nat.lt_irrefl]
    rw [ih (page + 1) (total + 100) (acc ++ server page)
      (by simp only [Pagination.usasPageLen, Pagination.usasCap]; omega)]
    simp only [List.length_append, hfull page, Pagination.usasPageLen,
      Pagination.usasCap]
    omega

theorem usas_first_short {α : Type} (server : Nat → List α)
    (hshort : (server 1).length < Pagination.usasPageLen) :
    Pagination.usasFetchPSC server = server 1 := by
  rw [Pagination.usasFetchPSC, Pagination.usasFetchLoop]
  cases hemp : (server 1).isEmpty
  · simp [hemp, hshort, Pagination.usasCap]
  · simp [hemp, List.isEmpty_iff.mp hemp, Pagination.usasCap]

/-- Claim C8: both pagination loops terminate at their configured safety caps
when the server always returns a full page — the EIA offset/length loop stops
with exactly 100000 accumulated records, the USASpending page loop with exactly
2000 contracts per PSC code — and otherwise stop as soon as a page comes back
shorter than the page size. -/
theorem claim_C8 :
    (∀ (server : Nat → List Nat), (∀ o, (server o).length = Pagination.eiaPageLen) →
        (Pagination.eiaFetch server).length = Pagination.eiaCap)
    ∧ (∀ (server : Nat → List Nat), (server 0).length < Pagination.eiaPageLen →
        Pagination.eiaFetch server = server 0)
    ∧ (∀ (server : Nat → List Nat), (∀ p, (server p).length = Pagination.usasPageLen) →
        (Pagination.usasFetchPSC server).length = Pagination.usasCap)
    ∧ (∀ (server : Nat → List Nat), (server 1).length < Pagination.usasPageLen →
        Pagination.usasFetchPSC server = server 1) := by
  refine ⟨fun server hfull => ?_, fun server hshort => eia_first_short server hshort,
    fun server hfull => ?_, fun server hshort => usas_first_short server hshort⟩
  · exact eia_loop_full server hfull 19 0 []
      (by simp [Pagination.eiaPageLen, Pagination.eiaCap])
  · rw [Pagination.usasFetchPSC,
      usas_loop_full server hfull 20 1 0 []
        (by simp [Pagination.usasPageLen, Pagination.usasCap])]
    simp

/-- Witness for C8: a server that always answers a full page, and one that
answers a short page first. -/
theorem claim_C8_witness :
    ((∀ o, ((fun _ : Nat => List.replicate 5000 (0 : Nat)) o).length = Pagination.eiaPageLen)
      ∧ (Pagination.eiaFetch (fun _ : Nat => List.replicate 5000 (0 : Nat))).length =
          Pagination.eiaCap)
    ∧ (((fun _ : Nat => ([7] : List Nat)) 0).length < Pagination.eiaPageLen
      ∧ Pagination.eiaFetch (fun _ : Nat => ([7] : List Nat)) = (fun _ : Nat => ([7] : List Nat)) 0)
    ∧ ((∀ p, ((fun _ : Nat => List.replicate 100 (0 : Nat)) p).length = Pagination.usasPageLen)
      ∧ (Pagination.usasFetchPSC (fun _ : Nat => List.replicate 100 (0 : Nat))).length =
          Pagination.usasCap)
    ∧ (((fun _ : Nat => ([7] : List Nat)) 1).length < Pagination.usasPageLen
      ∧ Pagination.usasFetchPSC (fun _ : Nat => ([7] : List Nat)) = (fun _ : Nat => ([7] : List Nat)) 1) :=
  ⟨⟨fun _ => by simp only [List.length_replicate, Pagination.eiaPageLen],
    claim_C8.1 _ (fun _ => by simp only [List.length_replicate, Pagination.eiaPageLen])⟩,
   ⟨by decide,
    claim_C8.2.1 _ (by decide)⟩,
   ⟨fun _ => by simp only [List.length_replicate, Pagination.usasPageLen],
    claim_C8.2.2.1 _ (fun _ => by simp only [List.length_replicate, Pagination.usasPageLen])⟩,
   ⟨by decide,
    claim_C8.2.2.2 _ (by decide)⟩⟩

theorem runGo_all_fail (outcomes : Nat → Except Str Nat) (mr : Nat)
    (hfail : ∀ i, i < mr → ∃ e, outcomes i = Except.error e) :
    ∀ (remaining attempt : Nat) (row : Base.ScraperRunRow) (done : Nat),
      attempt + remaining = mr → 1 ≤ remaining →
      ∃ e, outcomes (mr - 1) = Except.error e
        ∧ Base.runGo outcomes mr attempt row done =
            (some false, { row with status := .failed, error_message := some e },
              done + remaining) := by
  intro remaining
  induction remaining with
  | zero => intro attempt row done _ h1; omega
  | succ r ih =>
    intro attempt row done hsum _
    have hlt : attempt < mr := by omega
    obtain ⟨e, he⟩ := hfail attempt hlt
    rcases Nat.eq_zero_or_pos r with hr | hr
    · subst hr
      have hatt : attempt = mr - 1 := by omega
      refine ⟨e, by rw [← hatt]; exact he, ?_⟩
      rw [Base.runGo]
      simp only [hlt, dite_true, dif_pos, he]
      have : ¬ (attempt < mr - 1) := by omega
      simp [this, hatt]
    · have hlt2 : attempt < mr - 1 := by omega
      obtain ⟨e2, he2, hres⟩ := ih (attempt + 1) row (done + 1) (by omega) (by omega)
      refine ⟨e2, he2, ?_⟩
      rw [Base.runGo]
      simp only [hlt, dite_true, dif_pos, he, hlt2, if_pos]
      rw [hres]
      have : done + 1 + r = done + (r + 1) := by omega
      rw [this]

/-- Claim C4: a scraper whose pipeline raises on every attempt performs exactly
`max_retries` attempts, ends with its `scraper_runs` row marked `failed`
carrying a non-null error message, and `run` returns `False`; and the
orchestrator still produces one summary line for every job in its fixed list
regardless of individual failures. -/
theorem claim_C4 (outcomes : Nat → Except Str Nat) (mr : Nat) (name : Str)
    (hmr : 1 ≤ mr) (hfail : ∀ i, i < mr → ∃ e, outcomes i = Except.error e) :
    ((Base.run outcomes mr name).1 = some false
      ∧ (Base.run outcomes mr name).2.1.status = Base.RunStatus.failed
      ∧ (Base.run outcomes mr name).2.1.error_message.isSome = true
      ∧ (Base.run outcomes mr name).2.2 = mr)
    ∧ (∀ (jobs : List (Str × Except Str (Option Bool))),
        (Orchestrator.mainResults jobs).map Prod.fst = jobs.map Prod.fst
        ∧ ∀ j ∈ jobs, (j.1, Orchestrator.classify j.2) ∈ Orchestrator.mainResults jobs) := by
  constructor
  · obtain ⟨e, _, hres⟩ := runGo_all_fail outcomes mr hfail mr 0
      { scraper_name := name, status := .running, error_message := none,
        records_scraped := none } 0 (by omega) hmr
    rw [Base.run, hres]
    simp
  · intro jobs
    constructor
    · simp [Orchestrator.mainResults, List.map_map]
    · intro j hj
      exact List.mem_map.mpr ⟨j, hj, rfl⟩

/-- Witness for C4: a pipeline failing on all three default attempts. -/
theorem claim_C4_witness :
    (1 ≤ 3 ∧ (∀ i, i < 3 → ∃ e, (fun _ : Nat => (Except.error ("boom".toList) : Except Str Nat)) i = Except.error e))
    ∧ (((Base.run (fun _ => Except.error ("boom".toList)) 3 ("news_scraper".toList)).1 = some false
      ∧ (Base.run (fun _ => Except.error ("boom".toList)) 3 ("news_scraper".toList)).2.1.status = Base.RunStatus.failed
      ∧ (Base.run (fun _ => Except.error ("boom".toList)) 3 ("news_scraper".toList)).2.1.error_message.isSome = true
      ∧ (Base.run (fun _ => Except.error ("boom".toList)) 3 ("news_scraper".toList)).2.2 = 3)
    ∧ (∀ (jobs : List (Str × Except Str (Option Bool))),
        (Orchestrator.mainResults jobs).map Prod.fst = jobs.map Prod.fst
        ∧ ∀ j ∈ jobs, (j.1, Orchestrator.classify j.2) ∈ Orchestrator.mainResults jobs)) :=
  ⟨⟨by decide, fun i _ => ⟨"boom".toList, rfl⟩⟩,
   claim_C4 (fun _ => Except.error ("boom".toList)) 3 ("news_scraper".toList)
     (by decide) (fun i _ => ⟨"boom".toList, rfl⟩)⟩

/-- Claim C5 counterexample: a non-2xx HTTP status does not make the wrapper
fail — `BaseScraper.get` returns the status-404 response as a success value
instead of a `TransportError`, contradicting the claim as stated. -/
theorem claim_C5_counterexample :
    (Http.scraperGet [Http.NetEvent.respond 404]).1 =
      Except.ok (Http.HttpResponse.mk 404)
    ∧ (404 < 200 ∨ 300 ≤ 404)
    ∧ ∀ e, (Http.scraperGet [Http.NetEvent.respond 404]).1 ≠ Except.error e := by
  refine ⟨rfl, by omega, ?_⟩
  intro e h
  simp [Http.scraperGet, Http.sessionRequest, Http.scraperTimeout] at h

/-- Claim C5 (amended): every wrapper call carries the fixed 30-second
timeout and performs exactly one underlying request (no internal retry);
network failure and timeout surface as a `TransportError`; any HTTP response,
2xx or not, is returned without raising — status checking is left to the
callers, which invoke `response.raise_for_status()` (an error for statuses
400 and above) themselves. -/
theorem claim_C5_amended :
    Http.scraperTimeout = 30
    ∧ (∀ net, Http.scraperGet net = Http.sessionRequest 30 net
        ∧ Http.scraperPost net = Http.sessionRequest 30 net)
    ∧ (∀ rest, (Http.scraperGet (Http.NetEvent.connFail :: rest)).1 =
        Except.error Http.TransportErr.connectionError
      ∧ (Http.scraperGet (Http.NetEvent.timedOut :: rest)).1 =
        Except.error Http.TransportErr.timeoutError
      ∧ (Http.scraperPost (Http.NetEvent.connFail :: rest)).1 =
        Except.error Http.TransportErr.connectionError
      ∧ (Http.scraperPost (Http.NetEvent.timedOut :: rest)).1 =
        Except.error Http.TransportErr.timeoutError)
    ∧ (∀ s rest, Http.scraperGet (Http.NetEvent.respond s :: rest) =
        (Except.ok (Http.HttpResponse.mk s), rest)
      ∧ Http.scraperPost (Http.NetEvent.respond s :: rest) =
        (Except.ok (Http.HttpResponse.mk s), rest))
    ∧ (∀ e rest, (Http.scraperGet (e :: rest)).2 = rest)
    ∧ (∀ s, 400 ≤ s →
        Http.raiseForStatus (Http.HttpResponse.mk s) =
          Except.error (Http.TransportErr.httpStatusError s)) := by
  refine ⟨rfl, fun net => ⟨rfl, rfl⟩, fun rest => ⟨rfl, rfl, rfl, rfl⟩,
    fun s rest => ⟨rfl, rfl⟩, fun e rest => ?_, fun s hs => ?_⟩
  · cases e <;> rfl
  · simp [Http.raiseForStatus, hs]

/-- Witness for C5 (amended) at a concrete status. -/
theorem claim_C5_amended_witness :
    Http.scraperTimeout = 30
    ∧ Http.scraperGet [Http.NetEvent.respond 500] =
        (Except.ok (Http.HttpResponse.mk 500), [])
    ∧ (400 ≤ 500 ∧ Http.raiseForStatus (Http.HttpResponse.mk 500) =
        Except.error (Http.TransportErr.httpStatusError 500)) :=
  ⟨claim_C5_amended.1, (claim_C5_amended.2.2.2.1 500 []).1,
   by decide, claim_C5_amended.2.2.2.2.2 500 (by decide)⟩

theorem updFirst_filter_singleton {α : Type} (p : α → Bool) (f : α → α)
    (hp : ∀ x, p (f x) = p x) :
    ∀ (l : List α) (r : α), l.filter p = [r] →
      (updFirst p f l).filter p = [f r] := by
  intro l
  induction l with
  | nil => intro r h; simp at h
  | cons x xs ih =>
    intro r h
    by_cases hx : p x = true
    · rw [List.filter_cons_of_pos hx] at h
      obtain ⟨rfl, hnil⟩ : x = r ∧ xs.filter p = [] := by
        rw [List.cons_eq_cons] at h; exact ⟨h.1, h.2⟩
      simp only [updFirst, hx, if_pos]
      rw [List.filter_cons_of_pos (by rw [hp]; exact hx), hnil]
    · have hxf : p x = false := by simpa using hx
      rw [List.filter_cons_of_neg (by simp [hxf])] at h
      simp only [updFirst, hxf, Bool.false_eq_true, if_false]
      rw [List.filter_cons_of_neg (by simp [hxf])]
      exact ih r h

theorem filter_key_singleton {α : Type} (k : α → Str) (d : Str) :
    ∀ (l : List α) (r : α), (l.map k).Nodup → r ∈ l → k r = d →
      l.filter (fun x => k x == d) = [r] := by
  intro l
  induction l with
  | nil => intro r _ hr; simp at hr
  | cons x xs ih =>
    intro r hnd hr hk
    have hnd' : (xs.map k).Nodup := (List.nodup_cons.mp hnd).2
    have hx_not : k x ∉ xs.map k := (List.nodup_cons.mp hnd).1
    rcases List.mem_cons.mp hr with rfl | hr'
    · rw [List.filter_cons_of_pos (by simp [hk])]
      have : xs.filter (fun y => k y == d) = [] := by
        rw [List.filter_eq_nil_iff]
        intro y hy hyk
        exact hx_not (by rw [hk, ← (beq_iff_eq ..).mp hyk]; exact List.mem_map_of_mem k hy)
      rw [this]
    · have hxd : (k x == d) = false := by
        apply beq_eq_false_iff_ne.mpr
        intro hxe
        exact hx_not (by rw [hxe, ← hk]; exact List.mem_map_of_mem k hr')
      rw [List.filter_cons_of_neg (by simp [hxd])]
      exact ih r hnd' hr' hk

theorem find?_isSome_of_filter_singleton {α : Type} (p : α → Bool) (l : List α)
    (r : α) (h : l.filter p = [r]) : ∃ w, l.find? p = some w := by
  cases hf : l.find? p with
  | some w => exact ⟨w, rfl⟩
  | none =>
    have hr : r ∈ l.filter p := by rw [h]; exact List.mem_cons_self ..
    obtain ⟨hmem, hp⟩ := List.mem_filter.mp hr
    have := List.find?_eq_none.mp hf r hmem
    simp [hp] at this

theorem eia_store_daily_shape (d : Str) (pr : Rat) (rn sd : Str)
    (dieselDb : List DieselPriceRow) (daily : List DailyMetric) :
    (EIA.store [EIA.nusRec d pr rn sd] dieselDb daily).2 =
      upsertByDate d (EIA.updDailyDiesel pr) (EIA.newDailyDiesel d pr) daily := by
  unfold EIA.store EIA.step upsertByDate
  simp only [List.foldl_cons, List.foldl_nil, EIA.nusRec, Option.getD_some]
  cases hreg : dieselDb.find?
      (fun r => r.date == d && r.region_code == "NUS".toList) with
  | some w =>
    simp only [hreg]
    cases hdf : daily.find? (fun r => r.date == d) <;> simp [hdf]
  | none =>
    simp only [hreg]
    cases hdf : daily.find? (fun r => r.date == d) <;> simp [hdf]

theorem fred_store_daily_shape (d : Str) (v : Rat) (src : Str)
    (daily : List DailyMetric) :
    Fred.storeDaily [Fred.oilObs d v src] daily =
      upsertByDate d (Fred.updDaily (Fred.oilObs d v src))
        (Fred.newDaily (Fred.oilObs d v src)) daily := by
  unfold Fred.storeDaily Fred.dailyStep upsertByDate
  simp only [List.foldl_cons, List.foldl_nil, Fred.oilObs]

theorem upsertByDate_filter_of_singleton (d : Str) (g : DailyMetric → DailyMetric)
    (nr : DailyMetric) (hg : ∀ x, ((g x).date == d) = (x.date == d))
    (l : List DailyMetric) (x : DailyMetric)
    (hfil : l.filter (fun r => r.date == d) = [x]) :
    (upsertByDate d g nr l).filter (fun r => r.date == d) = [g x] := by
  obtain ⟨w, hw⟩ := find?_isSome_of_filter_singleton _ l x hfil
  unfold upsertByDate
  rw [hw]
  exact updFirst_filter_singleton _ g hg l x hfil

theorem upsertByDate_filter_of_none (d : Str) (g : DailyMetric → DailyMetric)
    (nr : DailyMetric) (hnr : (nr.date == d) = true) (l : List DailyMetric)
    (hfil : l.filter (fun r => r.date == d) = []) :
    (upsertByDate d g nr l).filter (fun r => r.date == d) = [nr] := by
  have hnone : l.find? (fun r => r.date == d) = none :=
    List.find?_eq_none.mpr (fun y hy => by
      have := List.filter_eq_nil_iff.mp hfil y hy
      simpa using this)
  unfold upsertByDate
  rw [hnone, List.filter_append, hfil]
  simp [hnr]

theorem upsertByDate_twice (d : Str) (g1 g2 : DailyMetric → DailyMetric)
    (nr1 nr2 : DailyMetric)
    (hg1 : ∀ x, ((g1 x).date == d) = (x.date == d))
    (hg2 : ∀ x, ((g2 x).date == d) = (x.date == d))
    (hnr1 : (nr1.date == d) = true)
    (db : List DailyMetric) (hnd : (db.map DailyMetric.date).Nodup) :
    ∃ x, (upsertByDate d g2 nr2 (upsertByDate d g1 nr1 db)).filter
          (fun r => r.date == d) = [x]
      ∧ (x = g2 nr1 ∨ ∃ y, y ∈ db ∧ x = g2 (g1 y)) := by
  by_cases hmem : ∃ w, w ∈ db ∧ w.date = d
  · obtain ⟨w, hw, hwd⟩ := hmem
    have hfil := filter_key_singleton DailyMetric.date d db w hnd hw hwd
    have h1 := upsertByDate_filter_of_singleton d g1 nr1 hg1 db w hfil
    have h2 := upsertByDate_filter_of_singleton d g2 nr2 hg2 _ _ h1
    exact ⟨g2 (g1 w), h2, .inr ⟨w, hw, rfl⟩⟩
  · have hfil : db.filter (fun r => r.date == d) = [] := by
      rw [List.filter_eq_nil_iff]
      intro y hy hpy
      exact hmem ⟨y, hy, by simpa using hpy⟩
    have h1 := upsertByDate_filter_of_none d g1 nr1 hnr1 db hfil
    have h2 := upsertByDate_filter_of_singleton d g2 nr2 hg2 _ _ h1
    exact ⟨g2 nr1, h2, .inl rfl⟩

/-- Claim C3: on any `daily_metrics` state with one row per date, running the
EIA diesel job (national record, sets `diesel_usd_per_gal`) and the FRED job
(sets `oil_price`) for the same date — in either order — leaves exactly one
row for that date, with the EIA price and the FRED value both populated:
neither two rows for the date nor either job's field lost. -/
theorem claim_C3 (db : List DailyMetric) (dieselDb₁ dieselDb₂ : List DieselPriceRow)
    (d : Str) (pr v : Rat) (rn sd src : Str)
    (hnd : (db.map DailyMetric.date).Nodup) :
    (((Fred.storeDaily [Fred.oilObs d v src]
          (EIA.store [EIA.nusRec d pr rn sd] dieselDb₁ db).2).filter
        (fun r => r.date == d)).length = 1
      ∧ ∀ r ∈ Fred.storeDaily [Fred.oilObs d v src]
            (EIA.store [EIA.nusRec d pr rn sd] dieselDb₁ db).2,
          r.date = d → r.diesel_usd_per_gal = some pr ∧ r.oil_price = some v)
    ∧ ((((EIA.store [EIA.nusRec d pr rn sd] dieselDb₂
            (Fred.storeDaily [Fred.oilObs d v src] db)).2).filter
        (fun r => r.date == d)).length = 1
      ∧ ∀ r ∈ (EIA.store [EIA.nusRec d pr rn sd] dieselDb₂
            (Fred.storeDaily [Fred.oilObs d v src] db)).2,
          r.date = d → r.diesel_usd_per_gal = some pr ∧ r.oil_price = some v) := by
  have hgE : ∀ x, ((EIA.updDailyDiesel pr x).date == d) = (x.date == d) :=
    fun x => rfl
  have hgF : ∀ x, ((Fred.updDaily (Fred.oilObs d v src) x).date == d) = (x.date == d) :=
    fun x => rfl
  have hnrE : ((EIA.newDailyDiesel d pr).date == d) = true := by
    simp [EIA.newDailyDiesel, DailyMetric.blank]
  have hnrF : ((Fred.newDaily (Fred.oilObs d v src)).date == d) = true := by
    simp [Fred.newDaily, Fred.setDailyField, Fred.oilObs, DailyMetric.blank]
  constructor
  · rw [eia_store_daily_shape, fred_store_daily_shape]
    obtain ⟨x, hx, hxor⟩ := upsertByDate_twice d (EIA.updDailyDiesel pr)
      (Fred.updDaily (Fred.oilObs d v src)) (EIA.newDailyDiesel d pr)
      (Fred.newDaily (Fred.oilObs d v src)) hgE hgF hnrE db hnd
    refine ⟨by rw [hx]; rfl, ?_⟩
    intro r hr hrd
    have hrf : r ∈ (upsertByDate d (Fred.updDaily (Fred.oilObs d v src))
        (Fred.newDaily (Fred.oilObs d v src))
        (upsertByDate d (EIA.updDailyDiesel pr) (EIA.newDailyDiesel d pr) db)).filter
          (fun x => x.date == d) :=
      List.mem_filter.mpr ⟨hr, by simp [hrd]⟩
    rw [hx] at hrf
    have hrx : r = x := List.mem_singleton.mp hrf
    subst hrx
    rcases hxor with rfl | ⟨y, _, rfl⟩
    · exact ⟨rfl, rfl⟩
    · exact ⟨rfl, rfl⟩
  · rw [fred_store_daily_shape, eia_store_daily_shape]
    obtain ⟨x, hx, hxor⟩ := upsertByDate_twice d
      (Fred.updDaily (Fred.oilObs d v src)) (EIA.updDailyDiesel pr)
      (Fred.newDaily (Fred.oilObs d v src)) (EIA.newDailyDiesel d pr)
      hgF hgE hnrF db hnd
    refine ⟨by rw [hx]; rfl, ?_⟩
    intro r hr hrd
    have hrf : r ∈ (upsertByDate d (EIA.updDailyDiesel pr) (EIA.newDailyDiesel d pr)
        (upsertByDate d (Fred.updDaily (Fred.oilObs d v src))
          (Fred.newDaily (Fred.oilObs d v src)) db)).filter
          (fun x => x.date == d) :=
      List.mem_filter.mpr ⟨hr, by simp [hrd]⟩
    rw [hx] at hrf
    have hrx : r = x := List.mem_singleton.mp hrf
    subst hrx
    rcases hxor with rfl | ⟨y, _, rfl⟩
    · exact ⟨rfl, rfl⟩
    · exact ⟨rfl, rfl⟩

/-- Witness for C3 on an empty initial store and a concrete date. -/
theorem claim_C3_witness :
    (([] : List DailyMetric).map DailyMetric.date).Nodup
    ∧ ((((Fred.storeDaily [Fred.oilObs ("2024-01-06".toList) 70 ("FRED-DCOILWTICO".toList)]
          (EIA.store [EIA.nusRec ("2024-01-06".toList) 3 ("U.S.".toList) ("desc".toList)] [] []).2).filter
        (fun r => r.date == "2024-01-06".toList)).length = 1
      ∧ ∀ r ∈ Fred.storeDaily [Fred.oilObs ("2024-01-06".toList) 70 ("FRED-DCOILWTICO".toList)]
            (EIA.store [EIA.nusRec ("2024-01-06".toList) 3 ("U.S.".toList) ("desc".toList)] [] []).2,
          r.date = "2024-01-06".toList →
            r.diesel_usd_per_gal = some 3 ∧ r.oil_price = some 70)
    ∧ ((((EIA.store [EIA.nusRec ("2024-01-06".toList) 3 ("U.S.".toList) ("desc".toList)] []
            (Fred.storeDaily [Fred.oilObs ("2024-01-06".toList) 70 ("FRED-DCOILWTICO".toList)] [])).2).filter
        (fun r => r.date == "2024-01-06".toList)).length = 1
      ∧ ∀ r ∈ (EIA.store [EIA.nusRec ("2024-01-06".toList) 3 ("U.S.".toList) ("desc".toList)] []
            (Fred.storeDaily [Fred.oilObs ("2024-01-06".toList) 70 ("FRED-DCOILWTICO".toList)] [])).2,
          r.date = "2024-01-06".toList →
            r.diesel_usd_per_gal = some 3 ∧ r.oil_price = some 70)) :=
  ⟨by simp,
   claim_C3 [] [] [] ("2024-01-06".toList) 3 70 ("U.S.".toList) ("desc".toList)
     ("FRED-DCOILWTICO".toList) (by simp)⟩

theorem news_storeFaulty_error (bad : News.Article → Bool) :
    ∀ (arts : List News.Article) (rows added : List News.NewsRow),
      (∃ a, a ∈ arts ∧ bad a = true) →
      ∃ e, News.storeFaulty bad arts rows added = Except.error e := by
  intro arts
  induction arts with
  | nil => intro rows added h; obtain ⟨a, ha, _⟩ := h; simp at ha
  | cons a rest ih =>
    intro rows added h
    by_cases hb : bad a = true
    · exact ⟨"Error storing articles".toList, by simp [News.storeFaulty, hb]⟩
    · have hbf : bad a = false := by simpa using hb
      obtain ⟨w, hw, hwb⟩ := h
      have hwrest : w ∈ rest := by
        rcases List.mem_cons.mp hw with rfl | h'
        · rw [hwb] at hbf; cases hbf
        · exact h'
      simp only [News.storeFaulty, hbf, Bool.false_eq_true, if_false]
      cases hf : rows.find? (fun r => r.id == a.id) with
      | some _ => exact ih _ _ ⟨w, hwrest, hwb⟩
      | none => exact ih _ _ ⟨w, hwrest, hwb⟩

theorem fred_storeDailyFaulty_error (badF : Fred.DailyObs → Bool) :
    ∀ (ms : List Fred.DailyObs) (rows : List DailyMetric),
      (∃ m, m ∈ ms ∧ badF m = true) →
      ∃ e, Fred.storeDailyFaulty badF ms rows = Except.error e := by
  intro ms
  induction ms with
  | nil => intro rows h; obtain ⟨m, hm, _⟩ := h; simp at hm
  | cons m rest ih =>
    intro rows h
    by_cases hb : badF m = true
    · exact ⟨"Error storing FRED data".toList, by simp [Fred.storeDailyFaulty, hb]⟩
    · have hbf : badF m = false := by simpa using hb
      obtain ⟨w, hw, hwb⟩ := h
      have hwrest : w ∈ rest := by
        rcases List.mem_cons.mp hw with rfl | h'
        · rw [hwb] at hbf; cases hbf
        · exact h'
      simp only [Fred.storeDailyFaulty, hbf, Bool.false_eq_true, if_false]
      exact ih _ ⟨w, hwrest, hwb⟩

/-- Claim C7: if any entity-level insert/update raises during a job's store
pass, the whole store raises (the error propagates to the retry loop as the
job's storage failure) and the rollback leaves the committed table exactly as
it was before the store began — no partial commit; shown for the news store
and the FRED daily store, whose `except` branches both roll back and
re-raise. -/
theorem claim_C7 (bad : News.Article → Bool) (arts : List News.Article)
    (db : List News.NewsRow) (badF : Fred.DailyObs → Bool)
    (ms : List Fred.DailyObs) (dbF : List DailyMetric)
    (h1 : ∃ a, a ∈ arts ∧ bad a = true) (h2 : ∃ m, m ∈ ms ∧ badF m = true) :
    ((∃ e, News.storeFaulty bad arts db [] = Except.error e)
      ∧ News.storeFaultyState bad arts db = db)
    ∧ ((∃ e, Fred.storeDailyFaulty badF ms dbF = Except.error e)
      ∧ Fred.storeDailyFaultyState badF ms dbF = dbF) := by
  obtain ⟨e1, he1⟩ := news_storeFaulty_error bad arts db [] h1
  obtain ⟨e2, he2⟩ := fred_storeDailyFaulty_error badF ms dbF h2
  refine ⟨⟨⟨e1, he1⟩, ?_⟩, ⟨e2, he2⟩, ?_⟩
  · rw [News.storeFaultyState, he1]
  · rw [Fred.storeDailyFaultyState, he2]

/-- Witness for C7: a store pass in which every entity-level write fails,
run against a non-empty committed table. -/
theorem claim_C7_witness :
    ((∃ a, a ∈ [News.sampleArticle]
        ∧ (fun (_ : News.Article) => true) a = true)
      ∧ (∃ m, m ∈ [Fred.oilObs ("2024-01-06".toList) 70 ("F".toList)]
          ∧ (fun (_ : Fred.DailyObs) => true) m = true))
    ∧ (((∃ e, News.storeFaulty (fun _ => true) [News.sampleArticle] [] [] =
            Except.error e)
      ∧ News.storeFaultyState (fun _ => true) [News.sampleArticle] [] = [])
    ∧ ((∃ e, Fred.storeDailyFaulty (fun _ => true)
          [Fred.oilObs ("2024-01-06".toList) 70 ("F".toList)]
          [DailyMetric.blank ("2024-01-05".toList)] = Except.error e)
      ∧ Fred.storeDailyFaultyState (fun _ => true)
          [Fred.oilObs ("2024-01-06".toList) 70 ("F".toList)]
          [DailyMetric.blank ("2024-01-05".toList)] =
            [DailyMetric.blank ("2024-01-05".toList)])) :=
  ⟨⟨⟨_, List.mem_cons_self .., rfl⟩, ⟨_, List.mem_cons_self .., rfl⟩⟩,
   claim_C7 (fun _ => true) _ [] (fun _ => true) _
     [DailyMetric.blank ("2024-01-05".toList)]
     ⟨_, List.mem_cons_self .., rfl⟩ ⟨_, List.mem_cons_self .., rfl⟩⟩

theorem updateRow_id (a : News.Article) (r : News.NewsRow) :
    (News.updateRow a r).id = r.id := by
  simp only [News.updateRow]
  split_ifs <;> rfl

theorem updateRow_notes (a : News.Article) (r : News.NewsRow) :
    (News.updateRow a r).notes = r.notes := by
  simp only [News.updateRow]
  split_ifs <;> rfl

theorem updateRow_importance_of_ne (a : News.Article) (r : News.NewsRow)
    (h : ¬ r.importance = 1) : (News.updateRow a r).importance = r.importance := by
  simp only [News.updateRow]
  split_ifs with h1 h2 h3 <;> first | rfl | exact absurd (by assumption) h

theorem updateRow_tags_of_truthy (a : News.Article) (r : News.NewsRow)
    (h : strTruthy r.tags = true) : (News.updateRow a r).tags = r.tags := by
  simp only [News.updateRow]
  split_ifs with h1 h2 h3 <;> first | rfl | (exfalso; simp_all)

theorem updateRow_idem (a : News.Article) (r : News.NewsRow) :
    News.updateRow a (News.updateRow a r) = News.updateRow a r := by
  simp only [News.updateRow]
  split_ifs <;> first | rfl | simp_all

theorem updateRow_fresh (a : News.Article) :
    News.updateRow a (News.rowOfArticle a) = News.rowOfArticle a := by
  simp only [News.updateRow, News.rowOfArticle]
  split_ifs <;> simp_all [strTruthy]

theorem updFirst_map_key {α : Type} (k : α → Str) (p : α → Bool) (f : α → α)
    (hf : ∀ x, k (f x) = k x) : ∀ l : List α, (updFirst p f l).map k = l.map k := by
  intro l
  induction l with
  | nil => rfl
  | cons x xs ih =>
    by_cases hx : p x = true
    · simp [updFirst, hx, hf]
    · simp only [updFirst, hx, Bool.false_eq_true, if_false, List.map_cons, ih]

theorem filter_updFirst_disjoint {α : Type} (p q : α → Bool) (f : α → α)
    (h : ∀ x, p x = true → q x = false ∧ q (f x) = false) :
    ∀ l : List α, (updFirst p f l).filter q = l.filter q := by
  intro l
  induction l with
  | nil => rfl
  | cons x xs ih =>
    by_cases hx : p x = true
    · obtain ⟨hq, hqf⟩ := h x hx
      simp only [updFirst, hx, if_pos]
      rw [List.filter_cons_of_neg (by simp [hqf]), List.filter_cons_of_neg (by simp [hq])]
    · simp only [updFirst, hx, Bool.false_eq_true, if_false]
      by_cases hq : q x = true
      · rw [List.filter_cons_of_pos hq, List.filter_cons_of_pos hq, ih]
      · rw [List.filter_cons_of_neg (by simpa using hq),
          List.filter_cons_of_neg (by simpa using hq), ih]

theorem mem_updFirst_of_not_p {α : Type} (p : α → Bool) (f : α → α) {y : α} :
    ∀ {l : List α}, y ∈ l → p y = false → y ∈ updFirst p f l := by
  intro l
  induction l with
  | nil => intro h _; simp at h
  | cons x xs ih =>
    intro hy hpy
    rcases List.mem_cons.mp hy with rfl | hy'
    · simp [updFirst, hpy]
    · by_cases hx : p x = true
      · simp only [updFirst, hx, if_pos]
        exact List.mem_cons_of_mem _ hy'
      · simp only [updFirst, hx, Bool.false_eq_true, if_false]
        exact List.mem_cons_of_mem _ (ih hy' hpy)

theorem mem_of_mem_updFirst {α : Type} (p : α → Bool) (f : α → α) {y : α} :
    ∀ {l : List α}, y ∈ updFirst p f l →
      y ∈ l ∨ ∃ x, x ∈ l ∧ p x = true ∧ y = f x := by
  intro l
  induction l with
  | nil => intro h; simp [updFirst] at h
  | cons x xs ih =>
    intro hy
    by_cases hx : p x = true
    · simp only [updFirst, hx, if_pos] at hy
      rcases List.mem_cons.mp hy with rfl | hy'
      · exact .inr ⟨x, List.mem_cons_self .., hx, rfl⟩
      · exact .inl (List.mem_cons_of_mem _ hy')
    · simp only [updFirst, hx, Bool.false_eq_true, if_false] at hy
      rcases List.mem_cons.mp hy with rfl | hy'
      · exact .inl (List.mem_cons_self ..)
      · rcases ih hy' with h | ⟨w, hw, hpw, rfl⟩
        · exact .inl (List.mem_cons_of_mem _ h)
        · exact .inr ⟨w, List.mem_cons_of_mem _ hw, hpw, rfl⟩

theorem news_storeAux_frozen :
    ∀ (arts : List News.Article) (rows added : List News.NewsRow) (i : Str),
      (∀ b ∈ arts, ¬ b.id = i) →
      (News.storeAux arts rows added).filter (fun r => r.id == i) =
        (rows ++ added).filter (fun r => r.id == i) := by
  intro arts
  induction arts with
  | nil => intro rows added i _; rfl
  | cons a rest ih =>
    intro rows added i hni
    have hai : ¬ a.id = i := hni a (List.mem_cons_self ..)
    have hni' : ∀ b ∈ rest, ¬ b.id = i := fun b hb => hni b (List.mem_cons_of_mem _ hb)
    cases hf : rows.find? (fun r => r.id == a.id) with
    | some w =>
      simp only [News.storeAux, hf]
      rw [ih _ _ _ hni']
      rw [List.filter_append, List.filter_append,
        filter_updFirst_disjoint (fun r => r.id == a.id) (fun r => r.id == i)
          (News.updateRow a) ?_]
      intro x hx
      have hxid : x.id = a.id := by simpa using hx
      constructor
      · simp [hxid, hai]
      · simp [updateRow_id, hxid, hai]
    | none =>
      simp only [News.storeAux, hf]
      rw [ih _ _ _ hni']
      rw [List.filter_append, List.filter_append, List.filter_append]
      have : (News.rowOfArticle a).id = a.id := rfl
      rw [List.filter_cons_of_neg (by simp [this, hai]), List.filter_nil,
        List.append_nil]

theorem news_storeAux_main :
    ∀ (arts : List News.Article) (rows added : List News.NewsRow),
      (arts.map News.Article.id).Nodup →
      ((rows ++ added).map News.NewsRow.id).Nodup →
      (∀ b ∈ arts, ∀ r ∈ added, ¬ r.id = b.id) →
      (((News.storeAux arts rows added).map News.NewsRow.id).Nodup
        ∧ ∀ a ∈ arts, ∃ r,
            (News.storeAux arts rows added).filter (fun x => x.id == a.id) = [r]
            ∧ News.updateRow a r = r
            ∧ ((∃ y, y ∈ rows ∧ y.id = a.id ∧ r = News.updateRow a y)
              ∨ ((∀ y ∈ rows, ¬ y.id = a.id) ∧ r = News.rowOfArticle a))) := by
  intro arts
  induction arts with
  | nil =>
    intro rows added _ H2 _
    exact ⟨by simp only [News.storeAux]; exact H2, by intro a ha; simp at ha⟩
  | cons a rest ih =>
    intro rows added H1 H2 H3
    have H1c : (News.Article.id a :: rest.map News.Article.id).Nodup := by
      simpa using H1
    have H1' : (rest.map News.Article.id).Nodup := (List.nodup_cons.mp H1c).2
    have hanotin : a.id ∉ rest.map News.Article.id := (List.nodup_cons.mp H1c).1
    have hrowsnd : (rows.map News.NewsRow.id).Nodup := by
      rw [List.map_append] at H2; exact H2.of_append_left
    have hrest_ne : ∀ c ∈ rest, ¬ c.id = a.id := by
      intro c hc he
      apply hanotin
      rw [← he]
      exact List.mem_map_of_mem News.Article.id hc
    have hfil_added : added.filter (fun x => x.id == a.id) = [] := by
      rw [List.filter_eq_nil_iff]
      intro y hy hpy
      exact H3 a (List.mem_cons_self ..) y hy (by simpa using hpy)
    cases hf : rows.find? (fun r => r.id == a.id) with
    | some w =>
      have hw_mem : w ∈ rows := List.mem_of_find?_eq_some hf
      have hw_id : w.id = a.id := by simpa using List.find?_some hf
      have hmap : (updFirst (fun r => r.id == a.id) (News.updateRow a) rows).map
          News.NewsRow.id = rows.map News.NewsRow.id :=
        updFirst_map_key _ _ _ (updateRow_id a) rows
      have H2' : ((updFirst (fun r => r.id == a.id) (News.updateRow a) rows
          ++ added).map News.NewsRow.id).Nodup := by
        rw [List.map_append, hmap, ← List.map_append]; exact H2
      have H3' : ∀ b ∈ rest, ∀ r ∈ added, ¬ r.id = b.id :=
        fun b hb => H3 b (List.mem_cons_of_mem _ hb)
      obtain ⟨ihnd, ihfil⟩ := ih (updFirst (fun r => r.id == a.id)
        (News.updateRow a) rows) added H1' H2' H3'
      refine ⟨by simp only [News.storeAux, hf]; exact ihnd, ?_⟩
      intro b hb
      rcases List.mem_cons.mp hb with rfl | hbr
      · have hfroz := news_storeAux_frozen rest
          (updFirst (fun r => r.id == b.id) (News.updateRow b) rows) added b.id hrest_ne
        have hfil_rows : rows.filter (fun x => x.id == b.id) = [w] :=
          filter_key_singleton News.NewsRow.id b.id rows w hrowsnd hw_mem hw_id
        have hfil_rows' : (updFirst (fun r => r.id == b.id) (News.updateRow b)
            rows).filter (fun x => x.id == b.id) = [News.updateRow b w] :=
          updFirst_filter_singleton _ _ (fun x => by rw [updateRow_id]) rows w hfil_rows
        refine ⟨News.updateRow b w, ?_, updateRow_idem b w, .inl ⟨w, hw_mem, hw_id, rfl⟩⟩
        simp only [News.storeAux, hf]
        rw [hfroz, List.filter_append, hfil_rows', hfil_added, List.append_nil]
      · obtain ⟨r, hrfil, hrconv, hror⟩ := ihfil b hbr
        have hbne : ¬ b.id = a.id := hrest_ne b hbr
        refine ⟨r, by simp only [News.storeAux, hf]; exact hrfil, hrconv, ?_⟩
        rcases hror with ⟨y, hy', hyid, rfl⟩ | ⟨hnone, rfl⟩
        · rcases mem_of_mem_updFirst _ _ hy' with hy | ⟨x, hx, hpx, rfl⟩
          · exact .inl ⟨y, hy, hyid, rfl⟩
          · exfalso
            have hxid : x.id = a.id := by simpa using hpx
            rw [updateRow_id] at hyid
            exact hbne (by rw [← hyid, hxid])
        · refine .inr ⟨?_, rfl⟩
          intro y hy he
          refine hnone y ?_ he
          refine mem_updFirst_of_not_p _ _ hy ?_
          rw [he]
          exact beq_eq_false_iff_ne.mpr hbne
    | none =>
      have hnotin : ∀ y ∈ rows, ¬ y.id = a.id := by
        intro y hy he
        have := List.find?_eq_none.mp hf y hy
        simp [he] at this
      have hard : (News.rowOfArticle a).id = a.id := rfl
      have H2' : ((rows ++ (added ++ [News.rowOfArticle a])).map
          News.NewsRow.id).Nodup := by
        rw [← List.append_assoc, List.map_append]
        refine List.Nodup.append H2 (List.nodup_singleton _) ?_
        intro z hz1 hz2
        simp only [List.map_cons, List.map_nil, List.mem_singleton] at hz2
        subst hz2
        obtain ⟨y, hy, hyid⟩ := List.mem_map.mp hz1
        rcases List.mem_append.mp hy with hy' | hy'
        · exact hnotin y hy' (by rw [hyid, hard])
        · exact H3 a (List.mem_cons_self ..) y hy' (by rw [hyid, hard])
      have H3' : ∀ b ∈ rest, ∀ r ∈ added ++ [News.rowOfArticle a], ¬ r.id = b.id := by
        intro b hb r hr he
        rcases List.mem_append.mp hr with hr' | hr'
        · exact H3 b (List.mem_cons_of_mem _ hb) r hr' he
        · have hra : r = News.rowOfArticle a := by simpa using hr'
          subst hra
          rw [hard] at he
          apply hanotin
          rw [he]
          exact List.mem_map_of_mem News.Article.id hb
      obtain ⟨ihnd, ihfil⟩ := ih rows (added ++ [News.rowOfArticle a]) H1' H2' H3'
      refine ⟨by simp only [News.storeAux, hf]; exact ihnd, ?_⟩
      intro b hb
      rcases List.mem_cons.mp hb with rfl | hbr
      · have hfroz := news_storeAux_frozen rest rows
          (added ++ [News.rowOfArticle b]) b.id hrest_ne
        have hfil_rows : rows.filter (fun x => x.id == b.id) = [] := by
          rw [List.filter_eq_nil_iff]
          intro y hy hpy
          exact hnotin y hy (by simpa using hpy)
        refine ⟨News.rowOfArticle b, ?_, updateRow_fresh b, .inr ⟨hnotin, rfl⟩⟩
        simp only [News.storeAux, hf]
        rw [hfroz, List.filter_append, hfil_rows, List.filter_append, hfil_added]
        simp [hard]
      · obtain ⟨r, hrfil, hrconv, hror⟩ := ihfil b hbr
        exact ⟨r, by simp only [News.storeAux, hf]; exact hrfil, hrconv, hror⟩

theorem updFirst_congr_id {α : Type} (p : α → Bool) (f : α → α) :
    ∀ l : List α, (∀ r ∈ l, p r = true → f r = r) → updFirst p f l = l := by
  intro l
  induction l with
  | nil => intro _; rfl
  | cons x xs ih =>
    intro h
    by_cases hx : p x = true
    · simp only [updFirst, hx, if_pos, h x (List.mem_cons_self ..) hx]
    · simp only [updFirst, hx, Bool.false_eq_true, if_false,
        ih (fun r hr => h r (List.mem_cons_of_mem _ hr))]

theorem news_storeAux_all_found :
    ∀ (arts : List News.Article) (rows added : List News.NewsRow),
      (∀ a ∈ arts, ∃ r, r ∈ rows ∧ (r.id == a.id) = true) →
      (∀ a ∈ arts, ∀ r ∈ rows, r.id = a.id → News.updateRow a r = r) →
      News.storeAux arts rows added = rows ++ added := by
  intro arts
  induction arts with
  | nil => intro rows added _ _; rfl
  | cons a rest ih =>
    intro rows added h1 h2
    obtain ⟨r, hrm, hrp⟩ := h1 a (List.mem_cons_self ..)
    cases hf : rows.find? (fun x => x.id == a.id) with
    | none =>
      exfalso
      have := List.find?_eq_none.mp hf r hrm
      simp [hrp] at this
    | some w =>
      have heq : updFirst (fun x => x.id == a.id) (News.updateRow a) rows = rows :=
        updFirst_congr_id _ _ rows
          (fun x hx hpx => h2 a (List.mem_cons_self ..) x hx (by simpa using hpx))
      simp only [News.storeAux, hf, heq]
      exact ih rows added (fun b hb => h1 b (List.mem_cons_of_mem _ hb))
        (fun b hb => h2 b (List.mem_cons_of_mem _ hb))

/-- Claim C1: running `NewsScraper.store` twice on the same parsed article list
(pairwise-distinct content-hash ids, as `_generate_id` derives them from
url ++ title) leaves the table identical after the second run — the second run
inserts nothing and changes no field — and every feed entry ends up with
exactly one row keyed by its id hash. -/
theorem claim_C1 (idOf : Str → Str) (articles : List News.Article)
    (db : List News.NewsRow)
    (hids : ∀ a ∈ articles, a.id = idOf (a.url ++ a.title))
    (hart : (articles.map News.Article.id).Nodup)
    (hdb : (db.map News.NewsRow.id).Nodup) :
    News.store articles (News.store articles db) = News.store articles db
    ∧ ∀ a ∈ articles,
        ((News.store articles db).filter
          (fun r => r.id == idOf (a.url ++ a.title))).length = 1 := by
  obtain ⟨hnd1, hfil⟩ := news_storeAux_main articles db [] hart (by simpa using hdb)
    (by intro b _ r hr; simp at hr)
  constructor
  · show News.storeAux articles (News.store articles db) [] = News.store articles db
    rw [news_storeAux_all_found articles (News.store articles db) [] ?_ ?_,
      List.append_nil]
    · intro a ha
      obtain ⟨r, hrfil, _, _⟩ := hfil a ha
      have hrmem : r ∈ (News.storeAux articles db []).filter
          (fun x => x.id == a.id) := by
        rw [hrfil]; exact List.mem_cons_self ..
      obtain ⟨hm, hp⟩ := List.mem_filter.mp hrmem
      exact ⟨r, hm, hp⟩
    · intro a ha r hr hid
      obtain ⟨r0, hrfil, hconv, _⟩ := hfil a ha
      have hrmem : r ∈ (News.storeAux articles db []).filter
          (fun x => x.id == a.id) :=
        List.mem_filter.mpr ⟨hr, by simp [hid]⟩
      rw [hrfil] at hrmem
      have hrr0 : r = r0 := List.mem_singleton.mp hrmem
      subst hrr0
      exact hconv
  · intro a ha
    obtain ⟨r, hrfil, _, _⟩ := hfil a ha
    show ((News.storeAux articles db []).filter
        (fun x => x.id == idOf (a.url ++ a.title))).length = 1
    rw [← hids a ha, hrfil]
    rfl

/-- Claim C2: re-ingestion never overwrites user annotations — for any
pre-existing row, after `NewsScraper.store` the row with its id still has the
same `importance` whenever it was non-default (≠ 1), the same `tags` whenever
they were truthy, and in every case the same `notes`. -/
theorem claim_C2 (articles : List News.Article) (db : List News.NewsRow)
    (hart : (articles.map News.Article.id).Nodup)
    (hdb : (db.map News.NewsRow.id).Nodup) :
    ∀ r0 ∈ db, ∀ r' ∈ News.store articles db, r'.id = r0.id →
      (¬ r0.importance = 1 → r'.importance = r0.importance)
      ∧ (strTruthy r0.tags = true → r'.tags = r0.tags)
      ∧ r'.notes = r0.notes := by
  intro r0 hr0 r' hr' hid
  by_cases hex : ∃ a, a ∈ articles ∧ a.id = r0.id
  · obtain ⟨a, ha, haid⟩ := hex
    obtain ⟨r, hrfil, hconv, hror⟩ := (news_storeAux_main articles db [] hart
      (by simpa using hdb) (by intro b _ rr hrr; simp at hrr)).2 a ha
    have hr'f : r' ∈ (News.storeAux articles db []).filter
        (fun x => x.id == a.id) :=
      List.mem_filter.mpr ⟨hr', by simp [hid, haid]⟩
    rw [hrfil] at hr'f
    have hr'r : r' = r := List.mem_singleton.mp hr'f
    subst hr'r
    rcases hror with ⟨y, hy, hyid, rfl⟩ | ⟨hnone, rfl⟩
    · have hyr0 : y = r0 := by
        have f1 := filter_key_singleton News.NewsRow.id r0.id db y hdb hy
          (by rw [hyid, haid])
        have f2 := filter_key_singleton News.NewsRow.id r0.id db r0 hdb hr0 rfl
        rw [f1] at f2
        simpa using f2
      subst hyr0
      exact ⟨fun hne => updateRow_importance_of_ne a y hne,
        fun ht => updateRow_tags_of_truthy a y ht, updateRow_notes a y⟩
    · exact absurd haid.symm (hnone r0 hr0)
  · have hni : ∀ b ∈ articles, ¬ b.id = r0.id := fun b hb he => hex ⟨b, hb, he⟩
    have hfroz := news_storeAux_frozen articles db [] r0.id hni
    have hfil_db : db.filter (fun x => x.id == r0.id) = [r0] :=
      filter_key_singleton News.NewsRow.id r0.id db r0 hdb hr0 rfl
    have hr'f : r' ∈ (News.storeAux articles db []).filter
        (fun x => x.id == r0.id) :=
      List.mem_filter.mpr ⟨hr', by simp [hid]⟩
    rw [hfroz, List.append_nil, hfil_db] at hr'f
    have hr'r0 : r' = r0 := List.mem_singleton.mp hr'f
    subst hr'r0
    exact ⟨fun _ => rfl, fun _ => rfl, rfl⟩

/-- Witness for C1: one concrete article whose id is the hash (here the
identity coding) of url ++ title, ingested twice into an empty table. -/
theorem claim_C1_witness :
    ((∀ a ∈ [{ News.sampleArticle with id := "ut".toList }], News.Article.id a =
        (fun s : Str => s) (a.url ++ a.title))
      ∧ (([{ News.sampleArticle with id := "ut".toList }].map News.Article.id)).Nodup
      ∧ ((([] : List News.NewsRow).map News.NewsRow.id)).Nodup)
    ∧ (News.store [{ News.sampleArticle with id := "ut".toList }]
          (News.store [{ News.sampleArticle with id := "ut".toList }] []) =
        News.store [{ News.sampleArticle with id := "ut".toList }] []
      ∧ ∀ a ∈ [{ News.sampleArticle with id := "ut".toList }],
          ((News.store [{ News.sampleArticle with id := "ut".toList }] []).filter
            (fun r => r.id == (fun s : Str => s) (a.url ++ a.title))).length = 1) :=
  ⟨⟨by decide, by decide, by decide⟩,
   claim_C1 (fun s => s) [{ News.sampleArticle with id := "ut".toList }] []
     (by decide) (by decide) (by decide)⟩

/-- Witness for C2: a user-annotated row (importance 5, user tags, notes)
surviving re-ingestion of the same article. -/
theorem claim_C2_witness :
    ((([News.sampleArticle].map News.Article.id)).Nodup
      ∧ (([{ News.rowOfArticle News.sampleArticle with importance := 5, tags := some ("u1".toList), notes := some ("n1".toList) }].map News.NewsRow.id)).Nodup)
    ∧ (∀ r0 ∈ [{ News.rowOfArticle News.sampleArticle with importance := 5, tags := some ("u1".toList), notes := some ("n1".toList) }],
        ∀ r' ∈ News.store [News.sampleArticle]
            [{ News.rowOfArticle News.sampleArticle with importance := 5, tags := some ("u1".toList), notes := some ("n1".toList) }],
          r'.id = r0.id →
            (¬ r0.importance = 1 → r'.importance = r0.importance)
            ∧ (strTruthy r0.tags = true → r'.tags = r0.tags)
            ∧ r'.notes = r0.notes) :=
  ⟨⟨by decide, by decide⟩,
   claim_C2 [News.sampleArticle]
     [{ News.rowOfArticle News.sampleArticle with importance := 5, tags := some ("u1".toList), notes := some ("n1".toList) }]
     (by decide) (by decide)⟩
